import Mathlib

/-!
Shallow embedding of the market-metric core of `src/main.py`: the delta
calculators, the point-diff trend labelling, the cache history lookup, the
signal evaluation and alert-level classification, the season-index fetch
fallback chain, the division guards of the ratio computations, and the
file-system effect of cache persistence.  Python `None` is modelled with
`Option`, Python floats with `ℚ` (the code only ever produces finite
values on the paths modelled here; non-finite parses raise and are caught,
which the embedding renders as `none`).
-/

namespace CryptoBot

/-- The metric vector captured once per evaluation cycle: the keys of
`snapshot_vals` in `build_report` (src/main.py lines 344-354).  `none`
models Python `None`, i.e. an `Unavailable` metric. -/
structure MetricVector where
  btc_dom : Option ℚ
  total_mc : Option ℚ
  altcap : Option ℚ
  ethbtc_7d : Option ℚ
  defi_7d : Option ℚ
  funding_avg : Option ℚ
  netflow_m : Option ℚ
  alt_btc_ratio : Option ℚ
  season_idx : Option ℤ

/-- Python `bool(x and x > thr)` for an optional float `x`: `None` and
`0.0` are falsy, so the comparison only runs on a truthy value. -/
def boolAndGt (x : Option ℚ) (thr : ℚ) : Bool :=
  match x with
  | none => false
  | some v => if v = 0 then false else decide (thr < v)

/-- Python `bool(x and x > thr)` for the integer-valued season index. -/
def boolAndGtInt (x : Option ℤ) (thr : ℤ) : Bool :=
  match x with
  | none => false
  | some v => if v = 0 then false else decide (thr < v)

/-- `s_ethbtc = bool(ethbtc_7d and ethbtc_7d > 3)` (src/main.py line 412). -/
def s_ethbtc (v : MetricVector) : Bool := boolAndGt v.ethbtc_7d 3

/-- `s_funding = bool(funding_avg and funding_avg > 0)` (line 413). -/
def s_funding (v : MetricVector) : Bool := boolAndGt v.funding_avg 0

/-- `s_netflow = bool(netflow_m and netflow_m > 0)` (line 414). -/
def s_netflow (v : MetricVector) : Bool := boolAndGt v.netflow_m 0

/-- `s_ratio = bool(alt_btc_ratio and alt_btc_ratio > 1.5)` (line 415). -/
def s_ratio (v : MetricVector) : Bool := boolAndGt v.alt_btc_ratio (3 / 2)

/-- `s_index = bool(season_idx and season_idx > 75)` (line 416). -/
def s_index (v : MetricVector) : Bool := boolAndGtInt v.season_idx 75

/-- The list of the five signal booleans, in source order (line 417). -/
def signals (v : MetricVector) : List Bool :=
  [s_ethbtc v, s_funding v, s_netflow v, s_ratio v, s_index v]

/-- `count_active = sum(bool(x) for x in signals)` (line 417): the number
of true signals. -/
def count_active (v : MetricVector) : ℕ := (signals v).count true

/-- The ordinal alert level.  In the source the level is a string
(`"Altseason Confirmed"`, `"Strong Signal"`, `"Early Signal"`) or `None`. -/
inductive AlertLevel where
  | none
  | early
  | strong
  | confirmed
  deriving DecidableEq

/-- Rank of a level in the order `none < early < strong < confirmed`. -/
def AlertLevel.toNat : AlertLevel → ℕ
  | .none => 0
  | .early => 1
  | .strong => 2
  | .confirmed => 3

/-- The level classification cascade of `build_report` (src/main.py lines
419-425), as a function of `count_active` and the season-index signal. -/
def classify (count : ℕ) (sIdx : Bool) : AlertLevel :=
  if 4 ≤ count ∧ sIdx = true then .confirmed
  else if 4 ≤ count then .strong
  else if 2 ≤ count ∧ count ≤ 3 then .early
  else .none

/-- The level `build_report` computes for a metric vector. -/
def level (v : MetricVector) : AlertLevel := classify (count_active v) (s_index v)

/-- A vector in which every metric is `Unavailable`. -/
def allUnavailable : MetricVector :=
  ⟨none, none, none, none, none, none, none, none, none⟩

/-- `_pct_change` (src/main.py lines 255-263): relative percent change,
`none` when either input is missing or the historical value is zero. -/
def _pct_change (cur prev : Option ℚ) : Option ℚ :=
  match cur, prev with
  | some c, some p => if p = 0 then none else some ((c - p) / p * 100)
  | _, _ => none

/-- `_abs_change` (src/main.py lines 265-271): absolute difference,
`none` when either input is missing. -/
def _abs_change (cur prev : Option ℚ) : Option ℚ :=
  match cur, prev with
  | some c, some p => some (c - p)
  | _, _ => none

/-- The label portion of `_brief_trend_pp` (src/main.py lines 293-306).
The source returns the formatted delta, the separator, and then this label;
the numeric-prefix formatting is pure display and is omitted here.  The
branch structure of the source: a delta of magnitude at least 1.0 gets the
strong marker, and a negative delta selects the FIRST label of the
caller-supplied pair (the source parameter named `pos_text`) while a
positive delta selects the second (`neg_text`) - so the caller passes the
text describing a falling value first, as the BTC-dominance call site does
(lines 433-442). -/
def _brief_trend_pp (pp : Option ℚ) (pos_text neg_text : String) : String :=
  match pp with
  | none => "N/A"
  | some val =>
    if val ≤ -1 then pos_text ++ " mạnh"
    else if val < 0 then pos_text
    else if 1 ≤ val then neg_text ++ " mạnh"
    else if 0 < val then neg_text
    else "Đi ngang"

/-- The seven-band classification of §4.3 of the design. -/
inductive Band where
  | strongPositive
  | positive
  | mildPositive
  | sideways
  | mildNegative
  | negative
  | strongNegative
  deriving DecidableEq

/-- The band induced by the point-diff comparisons of `_brief_trend_pp`
(threshold magnitude 1.0): same tests, in the same order, as the source. -/
def ppBand (d : ℚ) : Band :=
  if d ≤ -1 then .strongNegative
  else if d < 0 then .mildNegative
  else if 1 ≤ d then .strongPositive
  else if 0 < d then .mildPositive
  else .sideways

theorem boolAndGt_true_iff (x : Option ℚ) (t : ℚ) (ht : 0 ≤ t) :
    boolAndGt x t = true ↔ ∃ v, x = some v ∧ t < v := by
  cases x with
  | none => simp [boolAndGt]
  | some v =>
    by_cases hv : v = 0
    · subst hv
      simp [boolAndGt, not_lt.mpr ht]
    · simp [boolAndGt, hv]

theorem boolAndGtInt_true_iff (x : Option ℤ) (t : ℤ) (ht : 0 ≤ t) :
    boolAndGtInt x t = true ↔ ∃ v, x = some v ∧ t < v := by
  cases x with
  | none => simp [boolAndGtInt]
  | some v =>
    by_cases hv : v = 0
    · subst hv
      simp [boolAndGtInt, not_lt.mpr ht]
    · simp [boolAndGtInt, hv]

/-- C1: for every metric vector the alert level is classified in priority
order: `confirmed` when at least 4 signals are active and the season-index
signal is true, `strong` when at least 4 are active and the season-index
signal is false, `early` when 2 or 3 are active, and `none` otherwise; in
particular the all-`Unavailable` vector yields level `none`. -/
theorem C1_level_classification (v : MetricVector) :
    (4 ≤ count_active v ∧ s_index v = true → level v = AlertLevel.confirmed) ∧
    (4 ≤ count_active v ∧ s_index v = false → level v = AlertLevel.strong) ∧
    (2 ≤ count_active v ∧ count_active v ≤ 3 → level v = AlertLevel.early) ∧
    (count_active v < 2 → level v = AlertLevel.none) ∧
    level allUnavailable = AlertLevel.none := by
  refine ⟨fun h => ?_, fun h => ?_, fun h => ?_, fun h => ?_, by decide⟩
  · simp only [level, classify]
    rw [if_pos ⟨h.1, h.2⟩]
  · simp only [level, classify]
    rw [if_neg (by simp [h.2]), if_pos h.1]
  · simp only [level, classify]
    rw [if_neg (by rintro ⟨h4, -⟩; omega), if_neg (by omega), if_pos ⟨h.1, h.2⟩]
  · simp only [level, classify]
    rw [if_neg (by rintro ⟨h4, -⟩; omega), if_neg (by omega), if_neg (by rintro ⟨h2, -⟩; omega)]

def C1_witness_vec : MetricVector :=
  ⟨none, none, none, some 4, none, some 1, some 1, none, some 80⟩

/-- Witness for C1 at a concrete vector with five active signals. -/
theorem C1_witness :
    4 ≤ count_active C1_witness_vec ∧ s_index C1_witness_vec = true ∧
      level C1_witness_vec = AlertLevel.confirmed :=
  ⟨by decide, by decide, (C1_level_classification C1_witness_vec).1 ⟨by decide, by decide⟩⟩

/-- C2: each of the five signals is true exactly when its metric is
available and its current value exceeds its fixed threshold (momentum
`> 3`, funding `> 0`, netflow `> 0`, volume ratio `> 1.5`, season index
`> 75`); an `Unavailable` metric gives a false signal (the reverse
direction of each equivalence), and `count_active` is the number of true
signals, at most 5. -/
theorem C2_signal_thresholds (v : MetricVector) :
    (s_ethbtc v = true ↔ ∃ x, v.ethbtc_7d = some x ∧ 3 < x) ∧
    (s_funding v = true ↔ ∃ x, v.funding_avg = some x ∧ 0 < x) ∧
    (s_netflow v = true ↔ ∃ x, v.netflow_m = some x ∧ 0 < x) ∧
    (s_ratio v = true ↔ ∃ x, v.alt_btc_ratio = some x ∧ 3 / 2 < x) ∧
    (s_index v = true ↔ ∃ n, v.season_idx = some n ∧ 75 < n) ∧
    count_active v = (signals v).count true ∧
    count_active v ≤ 5 := by
  refine ⟨boolAndGt_true_iff _ _ (by norm_num), boolAndGt_true_iff _ _ le_rfl,
    boolAndGt_true_iff _ _ le_rfl, boolAndGt_true_iff _ _ (by norm_num),
    boolAndGtInt_true_iff _ _ (by norm_num), rfl, ?_⟩
  have h := List.count_le_length true (signals v)
  simpa [signals] using h

/-- Witness for C2: the netflow signal at a concrete vector. -/
theorem C2_witness :
    s_netflow (MetricVector.mk none none none none none none (some 120) none none) = true :=
  (C2_signal_thresholds
    (MetricVector.mk none none none none none none (some 120) none none)).2.2.1.mpr
    ⟨120, rfl, by norm_num⟩

/-- C3: for the point-diff delta kind with current 52.0 and historical
53.5 the delta is `-1.5`, which the band comparisons (magnitude threshold
1.0) classify as the strong negative band, and `_brief_trend_pp` renders it
with the strong marker on the label the caller supplies for the negative
direction (the first of the pair, as at the dominance call site); in
general every delta `≤ -1` gets the strong marker on the first label and
every delta `≥ 1` gets the strong marker on the second label. -/
theorem C3_point_diff_strong_bands :
    _abs_change (some 52) (some (107 / 2)) = some (-(3 / 2)) ∧
    ppBand (-(3 / 2)) = Band.strongNegative ∧
    _brief_trend_pp (some (-(3 / 2))) "Vốn rời BTC sang altcoin" "Vốn quay về BTC"
      = "Vốn rời BTC sang altcoin" ++ " mạnh" ∧
    (∀ d a b, d ≤ -1 → _brief_trend_pp (some d) a b = a ++ " mạnh") ∧
    (∀ d a b, 1 ≤ d → _brief_trend_pp (some d) a b = b ++ " mạnh") := by
  have hneg : ∀ d a b, d ≤ -1 → _brief_trend_pp (some d) a b = a ++ " mạnh" := by
    intro d a b h
    simp only [_brief_trend_pp]
    rw [if_pos h]
  have hpos : ∀ d a b, 1 ≤ d → _brief_trend_pp (some d) a b = b ++ " mạnh" := by
    intro d a b h
    simp only [_brief_trend_pp]
    rw [if_neg (by linarith), if_neg (by linarith), if_pos h]
  refine ⟨by norm_num [_abs_change], by norm_num [ppBand], ?_, hneg, hpos⟩
  exact hneg (-(3 / 2)) _ _ (by norm_num)

/-- Witness for C3's general band statements at a concrete delta. -/
theorem C3_witness :
    ((-2 : ℚ) ≤ -1) ∧ _brief_trend_pp (some (-2)) "giảm" "tăng" = "giảm" ++ " mạnh" :=
  ⟨by norm_num, C3_point_diff_strong_bands.2.2.2.1 (-2) "giảm" "tăng" (by norm_num)⟩

theorem classify_mono (c1 c2 : ℕ) (s : Bool) (h : c1 ≤ c2) :
    (classify c1 s).toNat ≤ (classify c2 s).toNat := by
  cases s <;> simp only [classify] <;> split_ifs <;>
    simp_all [AlertLevel.toNat] <;> omega

/-- C7: holding the season-index signal fixed, the level is monotone in
`count_active` under the rank `none < early < strong < confirmed`. -/
theorem C7_level_monotone (v1 v2 : MetricVector) (hs : s_index v1 = s_index v2)
    (h1 : 1 ≤ count_active v1) (h12 : count_active v1 ≤ count_active v2)
    (h2 : count_active v2 ≤ 5) :
    (level v1).toNat ≤ (level v2).toNat := by
  simp only [level, hs]
  exact classify_mono _ _ _ h12

/-- Witness for C7: two concrete vectors with equal season-index signal and
active counts 2 and 4. -/
theorem C7_witness :
    s_index (MetricVector.mk none none none none none none (some 1) none (some 80))
        = s_index (MetricVector.mk none none none (some 4) none (some 1) (some 1) none (some 80)) ∧
      1 ≤ count_active (MetricVector.mk none none none none none none (some 1) none (some 80)) ∧
      count_active (MetricVector.mk none none none none none none (some 1) none (some 80))
        ≤ count_active (MetricVector.mk none none none (some 4) none (some 1) (some 1) none (some 80)) ∧
      count_active (MetricVector.mk none none none (some 4) none (some 1) (some 1) none (some 80)) ≤ 5 ∧
      (level (MetricVector.mk none none none none none none (some 1) none (some 80))).toNat
        ≤ (level (MetricVector.mk none none none (some 4) none (some 1) (some 1) none (some 80))).toNat :=
  ⟨by decide, by decide, by decide, by decide,
    C7_level_monotone _ _ (by decide) (by decide) (by decide) (by decide)⟩

/-- The nine metrics, named by their snapshot keys. -/
inductive MetricKey where
  | btc_dom
  | total_mc
  | altcap
  | ethbtc_7d
  | defi_7d
  | funding_avg
  | netflow_m
  | alt_btc_ratio
  | season_idx
  deriving DecidableEq

/-- The delta function `build_report` applies to each metric, identically
for the 4h and the 24h comparison (src/main.py lines 367-409): total market
cap, altcoin market cap and the alt/BTC volume ratio use `_pct_change`;
BTC dominance, the ETH/BTC and DeFi 7d figures, the season index - and
also the funding-rate average and the stablecoin netflow (lines 391-399,
per the source comments: compared by absolute difference) - use
`_abs_change`. -/
def delta_for (k : MetricKey) (cur prev : Option ℚ) : Option ℚ :=
  match k with
  | .btc_dom => _abs_change cur prev
  | .total_mc => _pct_change cur prev
  | .altcap => _pct_change cur prev
  | .ethbtc_7d => _abs_change cur prev
  | .defi_7d => _abs_change cur prev
  | .funding_avg => _abs_change cur prev
  | .netflow_m => _abs_change cur prev
  | .alt_btc_ratio => _pct_change cur prev
  | .season_idx => _abs_change cur prev

/-- Counterexample to C4: the funding-rate average and the stablecoin
netflow are compared by absolute difference, not relative percent change:
with current 2 and historical 1 the code produces delta 1 where the claim
demands 100. -/
theorem C4_counterexample :
    delta_for MetricKey.funding_avg (some 2) (some 1) = some 1 ∧
    delta_for MetricKey.netflow_m (some 2) (some 1) = some 1 ∧
    _pct_change (some 2) (some 1) = some 100 ∧
    some (1 : ℚ) ≠ some (100 : ℚ) := by
  refine ⟨by norm_num [delta_for, _abs_change], by norm_num [delta_for, _abs_change],
    by norm_num [_pct_change], by norm_num⟩

/-- C4 as amended: among the claim's metrics only total market cap, altcoin
market cap and the alt/BTC volume ratio get the relative percent change
`(current - historical) / historical * 100` when both values are available
and the historical value is nonzero. -/
theorem C4_pct_change_metrics (k : MetricKey)
    (hk : k = MetricKey.total_mc ∨ k = MetricKey.altcap ∨ k = MetricKey.alt_btc_ratio)
    (c p : ℚ) (hp : p ≠ 0) :
    delta_for k (some c) (some p) = some ((c - p) / p * 100) := by
  rcases hk with rfl | rfl | rfl <;> simp [delta_for, _pct_change, hp]

/-- Witness for the amended C4 at total market cap with current 2,
historical 1. -/
theorem C4_witness :
    (MetricKey.total_mc = MetricKey.total_mc ∨ MetricKey.total_mc = MetricKey.altcap ∨
        MetricKey.total_mc = MetricKey.alt_btc_ratio) ∧
      (1 : ℚ) ≠ 0 ∧
      delta_for MetricKey.total_mc (some 2) (some 1) = some ((2 - 1) / 1 * 100) :=
  ⟨Or.inl rfl, by norm_num, C4_pct_change_metrics MetricKey.total_mc (Or.inl rfl) 2 1 (by norm_num)⟩

/-- One stored snapshot: an entry of `cache["history"]`, a dict with keys
`t` (epoch seconds) and `vals` (metric name to optional float). -/
structure Snap where
  t : ℤ
  vals : List (String × Option ℚ)
  deriving DecidableEq

/-- Python `h["vals"].get(key)`: `none` when the key is absent or the
stored value is `None`. -/
def getVal (h : Snap) (key : String) : Option ℚ := (h.vals.lookup key).bind id

/-- The candidate filter of `_find_value_at` (src/main.py line 248):
`h["t"] <= target_ts and key in h["vals"] and h["vals"][key] is not None`. -/
def isCand (key : String) (target_ts : ℤ) (h : Snap) : Bool :=
  decide (h.t ≤ target_ts) && (getVal h key).isSome

/-- Python `max(candidates, key=lambda x: x["t"])` over a nonempty list:
a left fold that replaces the running best only on a strictly greater `t`,
so the first maximal element wins. -/
def maxByTAux (b : Snap) : List Snap → Snap
  | [] => b
  | h :: tl => maxByTAux (if b.t < h.t then h else b) tl

/-- `max(candidates, key=...)`, `none` on the empty list (the source
returns `None` before calling `max` when `candidates` is empty). -/
def maxByT : List Snap → Option Snap
  | [] => none
  | h :: tl => some (maxByTAux h tl)

/-- `_find_value_at` (src/main.py lines 244-253). -/
def _find_value_at (history : List Snap) (key : String) (target_ts : ℤ) : Option ℚ :=
  match maxByT (history.filter (isCand key target_ts)) with
  | none => none
  | some best => getVal best key

theorem maxByTAux_mem (b : Snap) (l : List Snap) : maxByTAux b l ∈ b :: l := by
  induction l generalizing b with
  | nil => simp [maxByTAux]
  | cons h tl ih =>
    have hm := ih (if b.t < h.t then h else b)
    simp only [maxByTAux]
    rcases List.mem_cons.mp hm with h1 | h1
    · rw [h1]
      split_ifs
      · exact List.mem_cons_of_mem _ (List.mem_cons_self _ _)
      · exact List.mem_cons_self _ _
    · exact List.mem_cons_of_mem _ (List.mem_cons_of_mem _ h1)

theorem maxByTAux_le (b : Snap) (l : List Snap) :
    b.t ≤ (maxByTAux b l).t ∧ ∀ x ∈ l, x.t ≤ (maxByTAux b l).t := by
  induction l generalizing b with
  | nil => exact ⟨le_refl _, by simp⟩
  | cons h tl ih =>
    obtain ⟨h1, h2⟩ := ih (if b.t < h.t then h else b)
    simp only [maxByTAux]
    refine ⟨le_trans ?_ h1, ?_⟩
    · split_ifs with hlt
      · exact le_of_lt hlt
      · exact le_refl _
    · intro x hx
      rcases List.mem_cons.mp hx with rfl | hx
      · refine le_trans ?_ h1
        split_ifs with hlt
        · exact le_refl _
        · exact le_of_not_lt hlt
      · exact h2 x hx

theorem maxByTAux_first (b : Snap) (l : List Snap) :
    (b :: l).find? (fun x => decide (x.t = (maxByTAux b l).t)) = some (maxByTAux b l) := by
  induction l generalizing b with
  | nil => simp [maxByTAux, List.find?]
  | cons h tl ih =>
    simp only [maxByTAux]
    by_cases hlt : b.t < h.t
    · simp only [if_pos hlt]
      have hres := (maxByTAux_le h tl).1
      have hb : ¬ b.t = (maxByTAux h tl).t := by omega
      rw [List.find?_cons_of_neg, ih h]
      simpa using hb
    · simp only [if_neg hlt]
      have hble := (maxByTAux_le b tl).1
      have ihb := ih b
      by_cases hbt : b.t = (maxByTAux b tl).t
      · have hfirst : (b :: tl).find? (fun x => decide (x.t = (maxByTAux b tl).t)) = some b := by
          rw [List.find?_cons_of_pos]
          simpa using hbt
        have hb_eq : b = maxByTAux b tl := by
          rw [hfirst] at ihb
          exact Option.some.inj ihb
        rw [List.find?_cons_of_pos, ← hb_eq]
        simpa using hbt
      · have hh : ¬ h.t = (maxByTAux b tl).t := by
          have : h.t ≤ b.t := le_of_not_lt hlt
          omega
        rw [List.find?_cons_of_neg _ (by simpa using hbt), List.find?_cons_of_neg _ (by simpa using hh)]
        rw [List.find?_cons_of_neg _ (by simpa using hbt)] at ihb
        exact ihb

/-- C5: `_find_value_at` returns `none` exactly when no stored snapshot at
or before the target timestamp has the metric present, and any returned
value is the metric's value in a snapshot at or before the target whose
timestamp is greatest among all snapshots at or before the target that
have the metric present. -/
theorem C5_nearest_at_or_before (history : List Snap) (key : String) (target_ts : ℤ) :
    (_find_value_at history key target_ts = none ↔
      ∀ h ∈ history, h.t ≤ target_ts → getVal h key = none) ∧
    (∀ q, _find_value_at history key target_ts = some q →
      ∃ h ∈ history, h.t ≤ target_ts ∧ getVal h key = some q ∧
        ∀ h2 ∈ history, h2.t ≤ target_ts → (getVal h2 key).isSome → h2.t ≤ h.t) := by
  cases hf : history.filter (isCand key target_ts) with
  | nil =>
    have hnone : _find_value_at history key target_ts = none := by
      simp [_find_value_at, hf, maxByT]
    have hall := List.filter_eq_nil_iff.mp hf
    refine ⟨⟨fun _ h hmem hle => ?_, fun _ => hnone⟩, fun q hq => ?_⟩
    · have hnc := hall h hmem
      simp only [isCand, Bool.and_eq_true, decide_eq_true_eq, not_and] at hnc
      cases hgv : getVal h key with
      | none => rfl
      | some w => exact absurd (by simp [hgv]) (hnc hle)
    · rw [hnone] at hq
      exact absurd hq (by simp)
  | cons c cs =>
    have hmemf : maxByTAux c cs ∈ history.filter (isCand key target_ts) := by
      rw [hf]
      exact maxByTAux_mem c cs
    have hmemh : maxByTAux c cs ∈ history := (List.mem_filter.mp hmemf).1
    have hcand := (List.mem_filter.mp hmemf).2
    simp only [isCand, Bool.and_eq_true, decide_eq_true_eq] at hcand
    obtain ⟨hle, hsome⟩ := hcand
    obtain ⟨q0, hq0⟩ := Option.isSome_iff_exists.mp hsome
    have hres : _find_value_at history key target_ts = some q0 := by
      simp [_find_value_at, hf, maxByT, hq0]
    have hmax := maxByTAux_le c cs
    refine ⟨⟨fun hnone => ?_, fun hall => ?_⟩, fun q hq => ?_⟩
    · rw [hres] at hnone
      exact absurd hnone (by simp)
    · have hcontra := hall (maxByTAux c cs) hmemh hle
      rw [hq0] at hcontra
      exact absurd hcontra (by simp)
    · rw [hres] at hq
      have hq' : q0 = q := Option.some.inj hq
      subst hq'
      refine ⟨maxByTAux c cs, hmemh, hle, hq0, ?_⟩
      intro h2 hmem2 hle2 hsome2
      have hin : h2 ∈ history.filter (isCand key target_ts) := by
        refine List.mem_filter.mpr ⟨hmem2, ?_⟩
        simp [isCand, hle2, hsome2]
      rw [hf] at hin
      rcases List.mem_cons.mp hin with rfl | hmem3
      · exact hmax.1
      · exact hmax.2 _ hmem3

/-- Witness for C5: a concrete two-snapshot history where the later
snapshot wins. -/
theorem C5_witness :
    ∃ h ∈ [Snap.mk 10 [("a", some 1)], Snap.mk 5 [("a", some 2)]],
      h.t ≤ 20 ∧ getVal h "a" = some 1 ∧
        ∀ h2 ∈ [Snap.mk 10 [("a", some 1)], Snap.mk 5 [("a", some 2)]],
          h2.t ≤ 20 → (getVal h2 "a").isSome → h2.t ≤ h.t :=
  (C5_nearest_at_or_before [Snap.mk 10 [("a", some 1)], Snap.mk 5 [("a", some 2)]] "a" 20).2
    1 (by decide)

/-- C10: when the greatest candidate timestamp `M` is attained by several
stored snapshots that contain the metric, `_find_value_at` returns the
value of the first snapshot with timestamp `M` in append order (Python
`max` keeps the earliest of tied maxima). -/
theorem C10_tie_returns_earliest_appended (history : List Snap) (key : String)
    (target_ts : ℤ) (M : ℤ)
    (hex : ∃ h ∈ history.filter (isCand key target_ts), h.t = M)
    (hub : ∀ h ∈ history.filter (isCand key target_ts), h.t ≤ M) :
    _find_value_at history key target_ts =
      ((history.filter (isCand key target_ts)).find? (fun x => decide (x.t = M))).bind
        (fun b => getVal b key) := by
  obtain ⟨h0, hmem0, hM⟩ := hex
  cases hf : history.filter (isCand key target_ts) with
  | nil =>
    rw [hf] at hmem0
    simp at hmem0
  | cons c cs =>
    rw [hf] at hmem0 hub
    have hmax := maxByTAux_le c cs
    have hMeq : (maxByTAux c cs).t = M := by
      have hle1 : (maxByTAux c cs).t ≤ M := hub _ (maxByTAux_mem c cs)
      have hle2 : M ≤ (maxByTAux c cs).t := by
        rcases List.mem_cons.mp hmem0 with rfl | hmm
        · rw [← hM]
          exact hmax.1
        · rw [← hM]
          exact hmax.2 _ hmm
      omega
    have hfind := maxByTAux_first c cs
    rw [hMeq] at hfind
    simp [_find_value_at, hf, maxByT, hfind]

/-- Witness for C10: two snapshots tied at timestamp 10; the result is the
value of the earliest-appended of the two. -/
theorem C10_witness :
    (∃ h ∈ ([Snap.mk 10 [("a", some 1)], Snap.mk 10 [("a", some 2)],
        Snap.mk 5 [("a", some 3)]].filter (isCand "a" 20)), h.t = 10) ∧
    (∀ h ∈ ([Snap.mk 10 [("a", some 1)], Snap.mk 10 [("a", some 2)],
        Snap.mk 5 [("a", some 3)]].filter (isCand "a" 20)), h.t ≤ 10) ∧
    _find_value_at [Snap.mk 10 [("a", some 1)], Snap.mk 10 [("a", some 2)],
        Snap.mk 5 [("a", some 3)]] "a" 20 =
      (([Snap.mk 10 [("a", some 1)], Snap.mk 10 [("a", some 2)],
          Snap.mk 5 [("a", some 3)]].filter (isCand "a" 20)).find?
        (fun x => decide (x.t = 10))).bind (fun b => getVal b "a") ∧
    _find_value_at [Snap.mk 10 [("a", some 1)], Snap.mk 10 [("a", some 2)],
        Snap.mk 5 [("a", some 3)]] "a" 20 = some 1 :=
  ⟨by decide, by decide,
    C10_tie_returns_earliest_appended
      [Snap.mk 10 [("a", some 1)], Snap.mk 10 [("a", some 2)], Snap.mk 5 [("a", some 3)]]
      "a" 20 10 (by decide) (by decide),
    by decide⟩

/-- Python `round` on a finite float: round half to even. -/
def pyRound (q : ℚ) : ℤ :=
  if q - ⌊q⌋ < 1 / 2 then ⌊q⌋
  else if (1 : ℚ) / 2 < q - ⌊q⌋ then ⌊q⌋ + 1
  else if ⌊q⌋ % 2 = 0 then ⌊q⌋ else ⌊q⌋ + 1

/-- `get_altcoin_season_index` (src/main.py lines 185-205), parameterized
by the outcome of each source attempt in order: `api1` and `api2` are the
parsed `index` floats of the two structured endpoints (`none` when the
request failed, the payload had no usable index field, or the coercion
raised - which is what happens on a non-finite value, since `round` raises
on NaN/Inf and the bare `except` falls through); `scrape` is the integer
matched by the scrape pattern on the HTML page, `none` when the page or
the pattern match is unavailable.  The two API attempts return the rounded
value with no range check; only the scrape attempt checks the value lies
in 0..100, and an out-of-range scrape falls through to the final
`return None`. -/
def get_altcoin_season_index (api1 api2 : Option ℚ) (scrape : Option ℤ) : Option ℤ :=
  match api1 with
  | some x => some (pyRound x)
  | none =>
    match api2 with
    | some x => some (pyRound x)
    | none =>
      match scrape with
      | some v => if 0 ≤ v ∧ v ≤ 100 then some v else none
      | none => none

/-- Counterexample to C6: a structured API attempt that parses to 150 is
returned as 150, outside the declared Index0to100 domain - the API paths
perform no range check. -/
theorem C6_counterexample :
    get_altcoin_season_index (some 150) none none = some 150 ∧ ¬ (150 : ℤ) ≤ 100 := by
  constructor
  · norm_num [get_altcoin_season_index, pyRound]
  · decide

/-- C6 as amended: only the HTML-scrape attempt validates the domain - a
value produced when both API attempts failed lies in the interval
`[0, 100]`; the structured API attempts return the rounded parsed value
with no range check. -/
theorem C6_scrape_domain (scrape : Option ℤ) (v : ℤ)
    (h : get_altcoin_season_index none none scrape = some v) :
    0 ≤ v ∧ v ≤ 100 := by
  cases scrape with
  | none => simp [get_altcoin_season_index] at h
  | some w =>
    simp only [get_altcoin_season_index] at h
    split_ifs at h with hw
    cases h
    exact hw

/-- Witness for the amended C6 at a scrape value of 50. -/
theorem C6_witness : 0 ≤ (50 : ℤ) ∧ (50 : ℤ) ≤ 100 :=
  C6_scrape_domain (some 50) 50 (by decide)

/-- The persisted cache file; `none` models an absent file. -/
structure CacheFile where
  contents : Option String
  deriving DecidableEq

/-- The file-system effect of `_save_cache` (src/main.py lines 219-224):
`open(REPORT_CACHE_PATH, "w")` truncates the target file in place the
moment it opens, then `json.dump` writes the serialized payload to that
same file; the `with` block closes the handle on every exit path and the
surrounding bare `except` swallows any failure.  `interrupted` models a
failure between the truncating open and a completed dump. -/
def _save_cache (file : CacheFile) (payload : String) (interrupted : Bool) : CacheFile :=
  let truncated : CacheFile := CacheFile.mk (some "")
  if interrupted then truncated else CacheFile.mk (some payload)

/-- Counterexample to C8: `_save_cache` mutates the persisted file in
place - a write that fails after the truncating open leaves the file
empty, not the previously persisted contents; there is no
write-then-atomic-replace. -/
theorem C8_counterexample :
    _save_cache (CacheFile.mk (some "old")) "new" true = CacheFile.mk (some "") ∧
      CacheFile.mk (some "") ≠ CacheFile.mk (some "old") :=
  ⟨rfl, by decide⟩

/-- C8 as amended: persisting opens the cache path itself in truncating
write mode inside a `with` block (handle closed on every exit path,
exceptions swallowed); an uninterrupted save leaves the payload, while a
save interrupted after the open leaves the truncated file, losing the
previous contents. -/
theorem C8_in_place_truncating_write (file : CacheFile) (payload : String) :
    _save_cache file payload false = CacheFile.mk (some payload) ∧
      _save_cache file payload true = CacheFile.mk (some "") :=
  ⟨rfl, rfl⟩

/-- One point of the DeFi TVL series: a dict with `date` (epoch seconds)
and `tvl`. -/
structure TvlPoint where
  date : ℤ
  tvl : ℚ
  deriving DecidableEq

/-- `_compute_7d_change_from_series` (src/main.py lines 90-102).  The
`today_ts` parameter stands for the UTC-midnight timestamp the source
computes from the current time.  Python indexes `filtered[-1]` and
`filtered[-8]` after checking `len(filtered) >= 8`; the fallback match arm
is unreachable under that guard. -/
def _compute_7d_change_from_series (today_ts : ℤ) (series : List TvlPoint) : Option ℚ :=
  if series.length < 8 then none
  else
    let filtered := series.filter (fun p => decide (p.date ≤ today_ts))
    if filtered.length < 8 then none
    else
      match filtered[filtered.length - 1]?, filtered[filtered.length - 8]? with
      | some lastP, some prevP =>
        if prevP.tvl ≠ 0 then some ((lastP.tvl - prevP.tvl) / prevP.tvl * 100) else none
      | _, _ => none

/-- One row of the CoinGecko markets payload: `id` and the optional
`total_volume` (Python `coin.get("total_volume") or 0` maps a missing or
zero volume to 0). -/
structure CoinRow where
  id : String
  total_volume : Option ℚ
  deriving DecidableEq

/-- The inner loop of `get_alt_btc_spot_volume_ratio` over one page
(src/main.py lines 177-182). -/
def pageVolumes (acc : ℚ × ℚ) (page : List CoinRow) : ℚ × ℚ :=
  page.foldl (fun acc coin =>
    if coin.id = "bitcoin" then (acc.1 + coin.total_volume.getD 0, acc.2)
    else (acc.1, acc.2 + coin.total_volume.getD 0)) acc

/-- The page loop of `get_alt_btc_spot_volume_ratio` (lines 173-182):
pages are fetched in order and a missing or empty page breaks the loop.
The accumulator is `(btc_vol, alt_vol)`. -/
def sumVolumes : List (Option (List CoinRow)) → ℚ × ℚ → ℚ × ℚ
  | [], acc => acc
  | none :: _, acc => acc
  | some page :: rest, acc =>
    if page.isEmpty then acc else sumVolumes rest (pageVolumes acc page)

/-- `get_alt_btc_spot_volume_ratio` (src/main.py lines 170-183),
parameterized by the fetch results of the three pages:
`alt_vol / btc_vol if btc_vol > 0 else None`. -/
def get_alt_btc_spot_volume_ratio (pages : List (Option (List CoinRow))) : Option ℚ :=
  let vols := sumVolumes (pages.take 3) (0, 0)
  if 0 < vols.1 then some (vols.2 / vols.1) else none

/-- `get_funding_rate_avg` (src/main.py lines 142-149), parameterized by
the `lastFundingRate` field of each payload item (`none` when absent):
the mean of the present rates, `None` for an empty list. -/
def get_funding_rate_avg (data : List (Option ℚ)) : Option ℚ :=
  let rates := data.filterMap id
  if rates.isEmpty then none else some (rates.sum / (rates.length : ℚ))

/-- C9: every division in the delta and ratio computations is guarded by a
nonzero-denominator check - `_pct_change` returns `none` on a zero
historical value, `_compute_7d_change_from_series` returns `none` when the
8th-from-last filtered TVL is 0, `get_alt_btc_spot_volume_ratio` returns
`none` when the accumulated BTC volume is 0, and `get_funding_rate_avg`
returns `none` on an empty rate list - so the division is never evaluated
with a zero denominator. -/
theorem C9_division_guards :
    (∀ cur, _pct_change cur (some 0) = none) ∧
    (∀ (today_ts : ℤ) (series : List TvlPoint) (p : TvlPoint),
      (series.filter (fun q => decide (q.date ≤ today_ts)))[(series.filter
          (fun q => decide (q.date ≤ today_ts))).length - 8]? = some p →
      p.tvl = 0 → _compute_7d_change_from_series today_ts series = none) ∧
    (∀ pages : List (Option (List CoinRow)),
      (sumVolumes (pages.take 3) (0, 0)).1 = 0 →
        get_alt_btc_spot_volume_ratio pages = none) ∧
    (∀ data : List (Option ℚ), data.filterMap id = [] →
      get_funding_rate_avg data = none) := by
  refine ⟨?_, ?_, ?_, ?_⟩
  · intro cur
    cases cur <;> simp [_pct_change]
  · intro ts series p hp hp0
    simp only [_compute_7d_change_from_series]
    split_ifs with h1 h2
    · rfl
    · rfl
    · rw [hp]
      cases hL : (series.filter (fun q => decide (q.date ≤ ts)))[(series.filter
          (fun q => decide (q.date ≤ ts))).length - 1]? with
      | none => rfl
      | some lastP => simp [hp0]
  · intro pages h
    simp only [get_alt_btc_spot_volume_ratio]
    rw [h, if_neg (lt_irrefl 0)]
  · intro data h
    simp [get_funding_rate_avg, h]

/-- Witness for C9 at concrete inputs: a zero historical value, a TVL
series whose 8th-from-last value is 0, an absent first page (so the BTC
volume stays 0), and a payload with no funding rates. -/
theorem C9_witness :
    _pct_change (some 5) (some 0) = none ∧
    _compute_7d_change_from_series 100
      [TvlPoint.mk 1 0, TvlPoint.mk 2 1, TvlPoint.mk 3 1, TvlPoint.mk 4 1,
        TvlPoint.mk 5 1, TvlPoint.mk 6 1, TvlPoint.mk 7 1, TvlPoint.mk 8 1] = none ∧
    get_alt_btc_spot_volume_ratio [none] = none ∧
    get_funding_rate_avg [none] = none :=
  ⟨C9_division_guards.1 (some 5),
    C9_division_guards.2.1 100
      [TvlPoint.mk 1 0, TvlPoint.mk 2 1, TvlPoint.mk 3 1, TvlPoint.mk 4 1,
        TvlPoint.mk 5 1, TvlPoint.mk 6 1, TvlPoint.mk 7 1, TvlPoint.mk 8 1]
      (TvlPoint.mk 1 0) (by decide) rfl,
    C9_division_guards.2.2.1 [none] rfl,
    C9_division_guards.2.2.2 [none] rfl⟩

end CryptoBot
